import Mathlib

/-!
# GolfCapture: verification of the customer identity & capture pipeline

Shallow embedding of the GolfCapture backend (Express/Postgres application).
The JavaScript route handlers and helper functions of `backend/server.js`
(and the anti-abuse variant of the capture route) are translated into pure
Lean functions over an explicit database state.  Nullable SQL/JS values are
modelled as `Option`, JS truthiness of strings as `truthyS`, SQL `COALESCE`
as `jsCoalesce`, and the `Math.random()` draws of the reward-code generator
as an explicit list of natural numbers (one entry per draw, reduced mod the
alphabet size, which covers exactly the possible outputs of
`Math.floor(Math.random() * chars.length)`).
-/

namespace GolfCapture

/-- JS truthiness for a nullable string: `null`/`undefined` and `""` are falsy. -/
def truthyS : Option String → Bool
  | none => false
  | some s => !(s == "")

/-- SQL `COALESCE(a, b)`: the first non-null argument. -/
def jsCoalesce {α : Type} (a b : Option α) : Option α :=
  match a with
  | some v => some v
  | none => b

/-- JS `a || b` on nullable strings: `a` if truthy, otherwise `b`. -/
def jsOr (a b : Option String) : Option String :=
  if truthyS a then a else b

/-- JS `s.toLowerCase()` (ASCII letters, as `Char.toLower`). -/
def lowerStr (s : String) : String :=
  String.mk (s.data.map Char.toLower)

/-- JS `s.toUpperCase()` (ASCII letters, as `Char.toUpper`). -/
def upperStr (s : String) : String :=
  String.mk (s.data.map Char.toUpper)

/-- JS `s.trim()`: drop leading and trailing whitespace. -/
def jsTrim (s : String) : String :=
  String.mk (((s.data.dropWhile Char.isWhitespace).reverse.dropWhile Char.isWhitespace).reverse)

/-- `email?.toLowerCase().trim()` — email normalization used everywhere. -/
def normEmail (e : Option String) : Option String :=
  e.map (fun s => jsTrim (lowerStr s))

/-- JS `phone.replace(/\D/g, '')`: keep only ASCII digits. -/
def stripNonDigits (s : String) : String :=
  String.mk (s.data.filter Char.isDigit)

/-- `normalizePhone` from `backend/server.js`:
`null`/empty input gives `null`; otherwise strip non-digits, accept exactly
10 digits, or 11 digits starting with `'1'` (dropping the `1`), else `null`. -/
def normalizePhone (phone : Option String) : Option String :=
  match phone with
  | none => none
  | some s =>
    if s = "" then none
    else
      let digits := stripNonDigits s
      if digits.length = 10 then some digits
      else if digits.length = 11 ∧ digits.data.head? = some '1' then
        some (String.mk digits.data.tail)
      else none

/-- The 32-symbol reward-code alphabet from `generateRewardCode`. -/
def rewardChars : String := "ABCDEFGHJKLMNPQRSTUVWXYZ23456789"

/-- `generateRewardCode` from `backend/server.js`: the fixed prefix `"CP"`
followed by six characters drawn from `rewardChars`; the `i`-th random draw
`Math.floor(Math.random() * 32)` is modelled by `rands.getD i 0 % 32`. -/
def generateRewardCode (rands : List Nat) : String :=
  String.mk ('C' :: 'P' ::
    (List.range 6).map (fun i => rewardChars.data.getD (rands.getD i 0 % 32) 'A'))

/-- Customer row of the `customers` table (columns used by the core logic). -/
structure Customer where
  id : Nat
  course_id : Nat
  first_name : Option String
  last_name : Option String
  email : Option String
  phone : Option String
  zip : Option String
  booking_source : Option String
  is_local : Option Bool
  play_frequency : Option String
  member_elsewhere : Option Bool
  first_time_visitor : Option Bool
  source : String
  source_id : Option String
  visit_count : Nat
  membership_score : Nat
  is_membership_prospect : Bool
deriving Repr, DecidableEq

/-- `calculateMembershipScore` from `backend/server.js`, written as the sum
of the additive contributions of its sequential `score += …` statements,
clamped by the final `Math.min(score, 100)`. -/
def calculateMembershipScore (customer : Customer) : Nat :=
  min
    ((if customer.is_local = some true then 30 else 0)
      + (if customer.play_frequency = some "weekly" then 25
         else if customer.play_frequency = some "monthly" then 15
         else if customer.play_frequency = some "rarely" then 5 else 0)
      + (if customer.visit_count ≥ 5 then 20
         else if customer.visit_count ≥ 3 then 15
         else if customer.visit_count ≥ 2 then 10 else 0)
      + (if customer.member_elsewhere = some false then 15 else 0)
      + (if truthyS customer.email && truthyS customer.phone then 5 else 0)
      + (if truthyS customer.zip then 5 else 0))
    100

/-- The spec's point table (section 4.2), written with the spec's own band
descriptions: the visit bands `>= 5`, `== 3 or 4`, `== 2` are mutually
exclusive, the sum is clamped to at most 100. -/
def specScore (customer : Customer) : Nat :=
  min
    ((if customer.is_local = some true then 30 else 0)
      + (if customer.play_frequency = some "weekly" then 25
         else if customer.play_frequency = some "monthly" then 15
         else if customer.play_frequency = some "rarely" then 5 else 0)
      + (if customer.visit_count ≥ 5 then 20
         else if customer.visit_count = 3 ∨ customer.visit_count = 4 then 15
         else if customer.visit_count = 2 then 10 else 0)
      + (if customer.member_elsewhere = some false then 15 else 0)
      + (if truthyS customer.email && truthyS customer.phone then 5 else 0)
      + (if truthyS customer.zip then 5 else 0))
    100

/-- A row of the `courses` table (the columns the core logic reads). -/
structure Course where
  id : Nat
  slug : String
deriving Repr, DecidableEq

/-- A row of the `captures` table.  Note: per the schema, `reward_code` is
`VARCHAR(20) NOT NULL` with only a non-unique index, so the model imposes
no uniqueness on it. -/
structure Capture where
  id : Nat
  course_id : Nat
  customer_id : Option Nat
  location_id : Option Nat
  reward_code : String
  reward_type : String
  reward_redeemed : Bool
  reward_redeemed_by : Option String
deriving Repr, DecidableEq

/-- A row of the `prospect_pipeline` table (with `UNIQUE(customer_id)`). -/
structure PipelineEntry where
  course_id : Nat
  customer_id : Nat
  status : String
deriving Repr, DecidableEq

/-- The database state touched by the capture/redeem/import core. -/
structure Db where
  courses : List Course
  customers : List Customer
  captures : List Capture
  pipeline : List PipelineEntry
  nextCustomerId : Nat
  nextCaptureId : Nat
deriving Repr, DecidableEq

/-- `SELECT id FROM courses WHERE slug = $1` (first row). -/
def findCourse (db : Db) (slug : String) : Option Nat :=
  (db.courses.find? (fun co => co.slug == slug)).map (fun co => co.id)

/-- The request body of `POST /api/capture`. -/
structure CaptureRequest where
  courseSlug : Option String
  locationId : Option Nat
  firstName : Option String
  lastName : Option String
  email : Option String
  phone : Option String
  zip : Option String
  bookingSource : Option String
  isLocal : Option Bool
  playFrequency : Option String
  memberElsewhere : Option Bool
  firstTime : Option Bool
  chosenReward : Option String
deriving Repr, DecidableEq

/-- Public capture outcome of `POST /api/capture` in `backend/server.js`. -/
inductive CaptureOutcome where
  | error (msg : String)
  | ok (rewardCode : String) (isNewCustomer : Bool) (customerId : Nat)
deriving Repr, DecidableEq

/-- The `UPDATE customers SET … COALESCE($n, column) …, visit_count =
visit_count + 1` statement of the public capture path: each submitted
non-null value overwrites; null submitted values keep the stored value. -/
def applyCaptureUpdate (c : Customer) (req : CaptureRequest)
    (normalizedEmail normalizedPhone : Option String) : Customer :=
  { c with
    first_name := jsCoalesce req.firstName c.first_name
    last_name := jsCoalesce req.lastName c.last_name
    email := jsCoalesce normalizedEmail c.email
    phone := jsCoalesce normalizedPhone c.phone
    zip := jsCoalesce req.zip c.zip
    booking_source := jsCoalesce req.bookingSource c.booking_source
    is_local := jsCoalesce req.isLocal c.is_local
    play_frequency := jsCoalesce req.playFrequency c.play_frequency
    member_elsewhere := jsCoalesce req.memberElsewhere c.member_elsewhere
    visit_count := c.visit_count + 1 }

/-- The new-customer `INSERT` of the public capture path
(`visit_count = 1`, source `'capture'`, score columns at their defaults). -/
def newCaptureCustomer (db : Db) (courseId : Nat) (req : CaptureRequest)
    (normalizedEmail normalizedPhone : Option String) : Customer :=
  { id := db.nextCustomerId
    course_id := courseId
    first_name := req.firstName
    last_name := req.lastName
    email := normalizedEmail
    phone := normalizedPhone
    zip := req.zip
    booking_source := req.bookingSource
    is_local := req.isLocal
    play_frequency := req.playFrequency
    member_elsewhere := req.memberElsewhere
    first_time_visitor := req.firstTime
    source := "capture"
    source_id := none
    visit_count := 1
    membership_score := 0
    is_membership_prospect := false }

/-- `UPDATE customers SET membership_score = $1, is_membership_prospect =
$2 WHERE id = $3`. -/
def scoreUpdateDb (db : Db) (cid : Nat) (score : Nat) (isProspect : Bool) : Db :=
  { db with
    customers := db.customers.map (fun c : Customer =>
      if c.id == cid then
        { c with membership_score := score, is_membership_prospect := isProspect }
      else c) }

/-- The `INSERT INTO captures …` statement of the capture paths. -/
def appendCapture (db : Db) (courseId cid : Nat) (req : CaptureRequest)
    (rewardCode rewardType : String) : Db :=
  { db with
    captures := db.captures ++
      [{ id := db.nextCaptureId
         course_id := courseId
         customer_id := some cid
         location_id := req.locationId
         reward_code := rewardCode
         reward_type := rewardType
         reward_redeemed := false
         reward_redeemed_by := none }]
    nextCaptureId := db.nextCaptureId + 1 }

/-- The tail of the capture transaction, common to both branches:
re-read the customer (`SELECT * … WHERE id = $1`, first row), recompute
`membership_score` and `is_membership_prospect`, write them back, generate
the reward code and insert the capture row.  `db0` is the pre-transaction
state to roll back to if the re-read fails. -/
def finishCapture (db0 db1 : Db) (courseId cid : Nat) (isNewCustomer : Bool)
    (req : CaptureRequest) (rands : List Nat) : CaptureOutcome × Db :=
  match db1.customers.find? (fun c => c.id == cid) with
  | none => (.error "Customer not found", db0)
  | some customerData =>
    let score := calculateMembershipScore customerData
    let isProspect := decide (score ≥ 60) && (customerData.is_local == some true)
    let rewardCode := generateRewardCode rands
    (.ok rewardCode isNewCustomer cid,
      appendCapture (scoreUpdateDb db1 cid score isProspect) courseId cid req rewardCode "free_beer")

/-- `SELECT id, visit_count FROM customers WHERE course_id = $1 AND email
= $2`, guarded by the JS truthiness check on the normalized email. -/
def emailMatch (db : Db) (courseId : Nat) (normalizedEmail : Option String) : Option Customer :=
  if truthyS normalizedEmail then
    db.customers.find? (fun c => c.course_id == courseId && c.email == normalizedEmail)
  else none

/-- The secondary phone lookup, guarded by `!customerId && normalizedPhone`. -/
def phoneMatch (db : Db) (courseId : Nat) (normalizedPhone : Option String) : Option Customer :=
  if normalizedPhone.isSome then
    db.customers.find? (fun c => c.course_id == courseId && c.phone == normalizedPhone)
  else none

/-- The multi-channel identity match of the public capture path: email
first, phone as fallback. -/
def captureMatch (db : Db) (courseId : Nat) (normalizedEmail normalizedPhone : Option String) :
    Option Customer :=
  match emailMatch db courseId normalizedEmail with
  | some c => some c
  | none => phoneMatch db courseId normalizedPhone

/-- Applies the re-capture `UPDATE` to every customer row with the matched
id. -/
def captureUpdateDb (db : Db) (exCId : Nat) (req : CaptureRequest)
    (normalizedEmail normalizedPhone : Option String) : Db :=
  { db with
    customers := db.customers.map (fun c =>
      if c.id == exCId then applyCaptureUpdate c req normalizedEmail normalizedPhone
      else c) }

/-- Appends the new-customer row of the capture path. -/
def captureInsertDb (db : Db) (courseId : Nat) (req : CaptureRequest)
    (normalizedEmail normalizedPhone : Option String) : Db :=
  { db with
    customers := db.customers ++ [newCaptureCustomer db courseId req normalizedEmail normalizedPhone]
    nextCustomerId := db.nextCustomerId + 1 }

/-- `POST /api/capture` of `backend/server.js` (multi-channel matching, no
anti-abuse check): match by normalized email, then by normalized phone;
on match run the overwrite-merge `UPDATE` and bump `visit_count`; on no
match insert a new customer; then recompute the score and insert the
capture row.  Any thrown error rolls the whole transaction back. -/
def submitCapture (db : Db) (req : CaptureRequest) (rands : List Nat) :
    CaptureOutcome × Db :=
  match findCourse db ((req.courseSlug).getD "crescent-pointe") with
  | none => (.error "Course not found", db)
  | some courseId =>
    match captureMatch db courseId (normEmail req.email) (normalizePhone req.phone) with
    | some exC =>
      finishCapture db
        (captureUpdateDb db exC.id req (normEmail req.email) (normalizePhone req.phone))
        courseId exC.id false req rands
    | none =>
      finishCapture db
        (captureInsertDb db courseId req (normEmail req.email) (normalizePhone req.phone))
        courseId db.nextCustomerId true req rands

/-- Outcome of the anti-abuse variant of `POST /api/capture` (the handler
that hard-blocks a second claim per email and emails the code instead of
returning it). -/
inductive CaptureOutcomeV2 where
  | error (msg : String)
  | alreadyClaimed
  | ok (isNewCustomer : Bool) (customerId : Nat)
deriving Repr, DecidableEq

/-- The reward catalog (`rewardMap`) of the anti-abuse capture handler:
type, description and emoji per chosen reward. -/
def rewardMap (k : String) : Option (String × String × String) :=
  if k = "free_beer" then some ("free_beer", "Free beer after your round", "🍺")
  else if k = "free_soft_drink" then some ("free_soft_drink", "Free soft drink or water", "🥤")
  else if k = "pro_shop_5" then some ("pro_shop_5", "$5 Pro Shop credit", "🏌️")
  else if k = "food_bev_5" then some ("food_bev_5", "$5 Food & Bev credit", "🍔")
  else none

/-- `rewardMap[chosenReward] || rewardMap.free_beer`. -/
def resolveReward (chosenReward : Option String) : String × String × String :=
  match chosenReward with
  | some k => (rewardMap k).getD ("free_beer", "Free beer after your round", "🍺")
  | none => ("free_beer", "Free beer after your round", "🍺")

/-- `INSERT INTO prospect_pipeline … ON CONFLICT (customer_id) DO NOTHING`. -/
def enrollPipeline (db : Db) (courseId cid : Nat) : Db :=
  if db.pipeline.any (fun p => p.customer_id == cid) then db
  else { db with pipeline := db.pipeline ++ [{ course_id := courseId, customer_id := cid, status := "new" }] }

/-- Tail of the anti-abuse capture transaction: recompute score/prospect
flag, resolve the chosen reward, insert the capture row, and auto-enroll
the customer into the prospect pipeline when the flag is set. -/
def finishCaptureV2 (db0 db1 : Db) (courseId cid : Nat) (isNewCustomer : Bool)
    (req : CaptureRequest) (rands : List Nat) : CaptureOutcomeV2 × Db :=
  match db1.customers.find? (fun c => c.id == cid) with
  | none => (.error "Customer not found", db0)
  | some customerData =>
    let score := calculateMembershipScore customerData
    let isProspect := decide (score ≥ 60) && (customerData.is_local == some true)
    let rewardCode := generateRewardCode rands
    let db3 := appendCapture (scoreUpdateDb db1 cid score isProspect) courseId cid req
      rewardCode (resolveReward req.chosenReward).1
    (.ok isNewCustomer cid, if isProspect then enrollPipeline db3 courseId cid else db3)

/-- The anti-abuse variant of `POST /api/capture`: match by normalized
email only (phone is stored but never used as a matching key); before any
write, reject as `already_claimed` when the matched customer already has a
capture, or when any capture at this course is linked to a customer with
this email; otherwise insert/update, recompute the score and record the
capture. -/
def submitCaptureV2 (db : Db) (req : CaptureRequest) (rands : List Nat) :
    CaptureOutcomeV2 × Db :=
  match findCourse db ((req.courseSlug).getD "crescent-pointe") with
  | none => (.error "Course not found", db)
  | some courseId =>
    let claimByCustomer :=
      match emailMatch db courseId (normEmail req.email) with
      | some exC => db.captures.any (fun cap => cap.customer_id == some exC.id)
      | none => false
    if claimByCustomer then (.alreadyClaimed, db)
    else
      let claimByEmail :=
        truthyS (normEmail req.email) &&
          db.captures.any (fun cap =>
            db.customers.any (fun cu =>
              cap.customer_id == some cu.id && cu.course_id == courseId
                && cu.email == normEmail req.email))
      if claimByEmail then (.alreadyClaimed, db)
      else
        match emailMatch db courseId (normEmail req.email) with
        | some exC =>
          finishCaptureV2 db
            (captureUpdateDb db exC.id req (normEmail req.email) (normalizePhone req.phone))
            courseId exC.id false req rands
        | none =>
          finishCaptureV2 db
            (captureInsertDb db courseId req (normEmail req.email) (normalizePhone req.phone))
            courseId db.nextCustomerId true req rands

/-- Outcome of `POST /api/rewards/:code/redeem`. -/
inductive RedeemResult where
  | notFoundOrRedeemed
  | success (capture : Capture)
deriving Repr, DecidableEq

/-- The single row update applied by the redeem statement. -/
def markRedeemed (c : Capture) (redeemedBy : Option String) : Capture :=
  { c with reward_redeemed := true, reward_redeemed_by := redeemedBy }

/-- `POST /api/rewards/:code/redeem`: the atomic conditional update
`UPDATE captures SET reward_redeemed = true, … WHERE reward_code = $1 AND
reward_redeemed = false RETURNING *` on the uppercased code; zero updated
rows is the not-found-or-already-redeemed outcome. -/
def redeemCapture (db : Db) (code : String) (redeemedBy : Option String) :
    RedeemResult × Db :=
  let target := upperStr code
  match db.captures.filter (fun c => c.reward_code == target && !c.reward_redeemed) with
  | [] => (.notFoundOrRedeemed, db)
  | c :: _ =>
    (.success (markRedeemed c redeemedBy),
      { db with
        captures := db.captures.map (fun cap =>
          if cap.reward_code == target && !cap.reward_redeemed then
            markRedeemed cap redeemedBy
          else cap) })

/-- `GET /api/rewards/:code`: look up the capture by the uppercased code. -/
def checkReward (db : Db) (code : String) : Option Capture :=
  db.captures.find? (fun cap => cap.reward_code == upperStr code)

/-- Insert into a list sorted by `le` (auxiliary for the SQL `ORDER BY`). -/
def insertLe {α : Type} (le : α → α → Bool) (a : α) : List α → List α
  | [] => [a]
  | b :: bs => if le a b then a :: b :: bs else b :: insertLe le a bs

/-- Insertion sort by `le` (auxiliary for the SQL `ORDER BY`). -/
def sortLe {α : Type} (le : α → α → Bool) : List α → List α
  | [] => []
  | a :: as => insertLe le a (sortLe le as)

/-- `ORDER BY membership_score DESC, visit_count DESC`. -/
def prospectOrder (a b : Customer) : Bool :=
  a.membership_score > b.membership_score ||
    (a.membership_score == b.membership_score && a.visit_count ≥ b.visit_count)

/-- The row filter of `GET /api/prospects`: customer of the course with
`is_local = true AND membership_score >= 50`. -/
def prospectFilter (db : Db) (slug : String) (c : Customer) : Bool :=
  db.courses.any (fun co => co.id == c.course_id && co.slug == slug)
    && (c.is_local == some true) && decide (c.membership_score ≥ 50)

/-- `GET /api/prospects`: customers of the course with `is_local = true
AND membership_score >= 50`, ordered by score then visit count, limited. -/
def listProspects (db : Db) (slug : String) (lim : Nat) : List Customer :=
  (sortLe prospectOrder (db.customers.filter (prospectFilter db slug))).take lim

/-- The canonical fields a CSV row is mapped to by `POST /api/import`. -/
structure MappedData where
  firstName : Option String
  lastName : Option String
  email : Option String
  phone : Option String
  zip : Option String
deriving Repr, DecidableEq

/-- One parsed CSV record (header/value pairs) plus a fault flag modelling
a per-row processing exception thrown by a database call for that row
(caught by the row-level `try/catch` in the source). -/
structure ImportRow where
  fields : List (String × String)
  fault : Bool
deriving Repr, DecidableEq

/-- JS object lookup `row[k]` on a parsed CSV record. -/
def rowLookup (row : List (String × String)) (k : String) : Option String :=
  (row.find? (fun p => p.1 == k)).map (fun p => p.2)

/-- The source-specific header aliasing of `POST /api/import`
(`golfnow`, `clubessential`, generic fallback), each alias list tried in
priority order with JS `||`. -/
def mapFields (source : String) (row : List (String × String)) : MappedData :=
  if source = "golfnow" then
    { firstName := jsOr (rowLookup row "First Name") (jsOr (rowLookup row "first_name") (rowLookup row "FirstName"))
      lastName := jsOr (rowLookup row "Last Name") (jsOr (rowLookup row "last_name") (rowLookup row "LastName"))
      email := jsOr (rowLookup row "Email") (jsOr (rowLookup row "email") (rowLookup row "E-mail"))
      phone := jsOr (rowLookup row "Phone") (jsOr (rowLookup row "phone") (rowLookup row "Phone Number"))
      zip := jsOr (rowLookup row "Zip") (jsOr (rowLookup row "zip") (rowLookup row "Postal Code")) }
  else if source = "clubessential" then
    { firstName := jsOr (rowLookup row "FirstName") (jsOr (rowLookup row "First Name") (rowLookup row "first_name"))
      lastName := jsOr (rowLookup row "LastName") (jsOr (rowLookup row "Last Name") (rowLookup row "last_name"))
      email := jsOr (rowLookup row "Email") (jsOr (rowLookup row "email") (rowLookup row "EmailAddress"))
      phone := jsOr (rowLookup row "Phone") (jsOr (rowLookup row "phone") (jsOr (rowLookup row "MobilePhone") (rowLookup row "HomePhone")))
      zip := jsOr (rowLookup row "Zip") (jsOr (rowLookup row "zip") (rowLookup row "PostalCode")) }
  else
    { firstName := jsOr (rowLookup row "first_name") (jsOr (rowLookup row "firstName") (rowLookup row "First Name"))
      lastName := jsOr (rowLookup row "last_name") (jsOr (rowLookup row "lastName") (rowLookup row "Last Name"))
      email := jsOr (rowLookup row "email") (rowLookup row "Email")
      phone := jsOr (rowLookup row "phone") (rowLookup row "Phone")
      zip := jsOr (rowLookup row "zip") (rowLookup row "Zip") }

/-- The audit row written to `import_rows` for one input row. -/
structure AuditRow where
  rowNumber : Nat
  customer_id : Option Nat
  action : String
  matchType : Option String
  errorMessage : Option String
deriving Repr, DecidableEq

/-- The fill-blank-only merge `UPDATE customers SET first_name =
COALESCE(first_name, $2), …` of the import path: stored non-null values
always win. -/
def mergeImport (c : Customer) (m : MappedData)
    (normalizedEmail normalizedPhone : Option String) : Customer :=
  { c with
    first_name := jsCoalesce c.first_name m.firstName
    last_name := jsCoalesce c.last_name m.lastName
    email := jsCoalesce c.email normalizedEmail
    phone := jsCoalesce c.phone normalizedPhone
    zip := jsCoalesce c.zip m.zip }

/-- The new-customer `INSERT` of the import path (source tagged
`<source>_import`, external row id carried as `source_id`; the remaining
columns take their schema defaults, in particular `visit_count = 0`). -/
def newImportCustomer (db : Db) (courseId : Nat) (source : String)
    (row : List (String × String)) (m : MappedData)
    (normalizedEmail normalizedPhone : Option String) : Customer :=
  { id := db.nextCustomerId
    course_id := courseId
    first_name := m.firstName
    last_name := m.lastName
    email := normalizedEmail
    phone := normalizedPhone
    zip := m.zip
    booking_source := none
    is_local := none
    play_frequency := none
    member_elsewhere := none
    first_time_visitor := none
    source := source ++ "_import"
    source_id := jsOr (rowLookup row "id") (jsOr (rowLookup row "ID") none)
    visit_count := 0
    membership_score := 0
    is_membership_prospect := false }

/-- One iteration of the import row loop: skip rows with no usable contact
info, otherwise match by email then phone, fill-blank merge on a match or
insert on a miss, and emit exactly one audit row; a faulted row is caught
and audited as `error` without touching the database. -/
def processRow (source : String) (courseId : Nat) (db : Db) (idx : Nat)
    (row : ImportRow) : AuditRow × Db :=
  if row.fault then
    ({ rowNumber := idx + 1, customer_id := none, action := "error",
       matchType := none, errorMessage := some "row error" }, db)
  else
    let m := mapFields source row.fields
    let normalizedEmail := normEmail m.email
    let normalizedPhone := normalizePhone m.phone
    if !truthyS normalizedEmail && normalizedPhone.isNone then
      ({ rowNumber := idx + 1, customer_id := none, action := "skipped",
         matchType := none, errorMessage := some "No email or phone" }, db)
    else
      let byEmail :=
        if truthyS normalizedEmail then
          db.customers.find? (fun c => c.course_id == courseId && c.email == normalizedEmail)
        else none
      let matched : Option (Customer × String) :=
        match byEmail with
        | some c => some (c, "email")
        | none =>
          if normalizedPhone.isSome then
            match db.customers.find? (fun c => c.course_id == courseId && c.phone == normalizedPhone) with
            | some c => some (c, "phone")
            | none => none
          else none
      match matched with
      | some (exC, mt) =>
        ({ rowNumber := idx + 1, customer_id := some exC.id, action := "matched",
           matchType := some mt, errorMessage := none },
         { db with
           customers := db.customers.map (fun c =>
             if c.id == exC.id then mergeImport c m normalizedEmail normalizedPhone else c) })
      | none =>
        ({ rowNumber := idx + 1, customer_id := some db.nextCustomerId, action := "created",
           matchType := none, errorMessage := none },
         { db with
           customers := db.customers ++ [newImportCustomer db courseId source row.fields m normalizedEmail normalizedPhone]
           nextCustomerId := db.nextCustomerId + 1 })

/-- The import row loop: process rows in order, threading the database and
appending exactly one audit row per input row. -/
def runRows (source : String) (courseId : Nat) (db : Db) (idx : Nat) :
    List ImportRow → Db × List AuditRow
  | [] => (db, [])
  | row :: rest =>
    let step := processRow source courseId db idx row
    let tail := runRows source courseId step.2 (idx + 1) rest
    (tail.1, step.1 :: tail.2)

/-- Aggregate batch counters written back to the `imports` record. -/
structure ImportStats where
  totalRows : Nat
  created : Nat
  matched : Nat
  skipped : Nat
  errors : Nat
deriving Repr, DecidableEq

/-- Number of audit rows with the given action (the loop's incremental
counters reach exactly these values after the full pass). -/
def countAction (audits : List AuditRow) (a : String) : Nat :=
  audits.countP (fun r => r.action == a)

/-- `POST /api/import`: resolve the course (failure rolls the whole batch
back), run the row loop, and finalize the batch counters. -/
def processImport (db : Db) (slug source : String) (rows : List ImportRow) :
    Option (ImportStats × Db × List AuditRow) :=
  match findCourse db slug with
  | none => none
  | some courseId =>
    let out := runRows source courseId db 0 rows
    some ({ totalRows := rows.length
            created := countAction out.2 "created"
            matched := countAction out.2 "matched"
            skipped := countAction out.2 "skipped"
            errors := countAction out.2 "error" },
          out.1, out.2)

/-! ## Concrete states used to evaluate the model on explicit inputs -/

/-- A capture form submission with every field absent. -/
def blankRequest : CaptureRequest :=
  { courseSlug := none, locationId := none, firstName := none, lastName := none,
    email := none, phone := none, zip := none, bookingSource := none,
    isLocal := none, playFrequency := none, memberElsewhere := none,
    firstTime := none, chosenReward := none }

/-- A customer record with only identity fields set. -/
def baseCustomer : Customer :=
  { id := 1, course_id := 1, first_name := none, last_name := none,
    email := none, phone := none, zip := none, booking_source := none,
    is_local := none, play_frequency := none, member_elsewhere := none,
    first_time_visitor := none, source := "capture", source_id := none,
    visit_count := 1, membership_score := 0, is_membership_prospect := false }

/-- An empty one-course database. -/
def baseDb : Db :=
  { courses := [{ id := 1, slug := "crescent-pointe" }], customers := [],
    captures := [], pipeline := [], nextCustomerId := 1, nextCaptureId := 1 }

/-- Existing customer named Alice, known email, for the merge counterexample. -/
def mergeCexDb : Db :=
  { baseDb with
    customers := [{ baseCustomer with first_name := some "Alice", email := some "alice@example.com" }]
    nextCustomerId := 2 }

/-- A re-capture submission for Alice's email carrying the name Bob. -/
def mergeCexReq : CaptureRequest :=
  { blankRequest with firstName := some "Bob", email := some "alice@example.com" }

/-- Database for the merge-semantics witness: one matched customer with a
known zip, and a submission that supplies a name but no zip. -/
def mergeWitDb : Db :=
  { baseDb with
    customers := [{ baseCustomer with email := some "carol@example.com", zip := some "29910" }]
    nextCustomerId := 2 }

/-- Submission matching `mergeWitDb`'s customer by email. -/
def mergeWitReq : CaptureRequest :=
  { blankRequest with firstName := some "Carol", email := some "carol@example.com" }

/-- A first-time submission used to exercise the new-customer path. -/
def flagWitReq : CaptureRequest :=
  { blankRequest with
    firstName := some "Dana"
    email := some "dana@example.com"
    isLocal := some true
    playFrequency := some "weekly" }

/-- One unredeemed capture with code `CPABCDEF`, for the redeem theorems. -/
def redeemWitDb : Db :=
  { baseDb with
    captures := [{ id := 1, course_id := 1, customer_id := some 1, location_id := none,
                   reward_code := "CPABCDEF", reward_type := "free_beer",
                   reward_redeemed := false, reward_redeemed_by := none }]
    nextCaptureId := 2 }

/-- A course, a customer and a capture already linked to that customer's
email, for the anti-abuse (already claimed) theorems. -/
def claimedDb : Db :=
  { baseDb with
    customers := [{ baseCustomer with email := some "bob@example.com" }]
    captures := [{ id := 1, course_id := 1, customer_id := some 1, location_id := none,
                   reward_code := "CPABCDEF", reward_type := "free_beer",
                   reward_redeemed := false, reward_redeemed_by := none }]
    nextCustomerId := 2, nextCaptureId := 2 }

/-- A second submission for the already-claimed email. -/
def claimedReq : CaptureRequest :=
  { blankRequest with firstName := some "Bob", email := some "bob@example.com" }

/-- The spec's maximal-signal customer: local, weekly player, five visits,
not a member elsewhere, full contact info and zip. -/
def maxSignalCustomer : Customer :=
  { baseCustomer with
    email := some "max@example.com", phone := some "8431234567", zip := some "29910",
    is_local := some true, play_frequency := some "weekly",
    member_elsewhere := some false, visit_count := 5 }

/-- Two import rows: one with no usable contact info, one faulted. -/
def importWitRows : List ImportRow :=
  [{ fields := [("first_name", "NoContact")], fault := false },
   { fields := [("email", "erin@example.com")], fault := true }]

/-- A non-local customer with a qualifying score, for the prospects
listing counterexample. -/
def prospectsCexDb : Db :=
  { baseDb with
    customers := [{ baseCustomer with
                    email := some "far@example.com"
                    is_local := some false
                    membership_score := 80 }]
    nextCustomerId := 2 }

/-- A local customer with a qualifying score, for the prospects witness. -/
def prospectsWitDb : Db :=
  { baseDb with
    customers := [{ baseCustomer with
                    email := some "near@example.com"
                    is_local := some true
                    membership_score := 55 }]
    nextCustomerId := 2 }

/-- First capture submission of the collision scenario. -/
def collisionReqA : CaptureRequest :=
  { blankRequest with firstName := some "Ann", email := some "ann@example.com" }

/-- Second capture submission of the collision scenario (different email,
identical random draws). -/
def collisionReqB : CaptureRequest :=
  { blankRequest with firstName := some "Ben", email := some "ben@example.com" }

/-- State after the first collision-scenario submission. -/
def collisionDb1 : Db := (submitCapture baseDb collisionReqA [0, 0, 0, 0, 0, 0]).2

/-- State after the second collision-scenario submission, with the random
stream repeating the first submission's draws. -/
def collisionDb2 : Db := (submitCapture collisionDb1 collisionReqB [0, 0, 0, 0, 0, 0]).2

/-! ## Helper lemmas -/

theorem string_mk_data (l : List Char) : (String.mk l).data = l := rfl

theorem stripNonDigits_all (s : String) : ∀ a ∈ (stripNonDigits s).data, Char.isDigit a := by
  intro a ha
  have h : a ∈ s.data.filter Char.isDigit := ha
  exact (List.mem_filter.mp h).2

theorem normalizePhone_digits (d : String) (h10 : d.length = 10)
    (hall : ∀ a ∈ d.data, Char.isDigit a) : normalizePhone (some d) = some d := by
  have hne : ¬(d = "") := by
    intro h
    subst h
    exact absurd h10 (by decide)
  have hfilter : d.data.filter Char.isDigit = d.data :=
    List.filter_eq_self.mpr (fun a ha => by simpa using hall a ha)
  have hstrip : stripNonDigits d = d := by
    unfold stripNonDigits
    rw [hfilter]
  simp [normalizePhone, hne, hstrip, h10]

theorem normalizePhone_shape (p : Option String) :
    normalizePhone p = none ∨
      ∃ d, normalizePhone p = some d ∧ d.length = 10 ∧ ∀ a ∈ d.data, Char.isDigit a := by
  match p with
  | none => exact Or.inl rfl
  | some s =>
    by_cases hs : s = ""
    · subst hs
      exact Or.inl rfl
    · by_cases h10 : (stripNonDigits s).length = 10
      · right
        exact ⟨stripNonDigits s, by simp [normalizePhone, hs, h10], h10, stripNonDigits_all s⟩
      · by_cases h11 : (stripNonDigits s).length = 11 ∧ (stripNonDigits s).data.head? = some '1'
        · right
          refine ⟨String.mk (stripNonDigits s).data.tail, by simp [normalizePhone, hs, h10, h11], ?_, ?_⟩
          · have hlen : (stripNonDigits s).data.length = 11 := h11.1
            show (stripNonDigits s).data.tail.length = 10
            simp [List.length_tail, hlen]
          · intro a ha
            exact stripNonDigits_all s a (List.mem_of_mem_tail ha)
        · left
          simp [normalizePhone, hs, h10, h11]

/-! ## Claim theorems -/

/-- C5: the membership score is the sum of the spec's point table with the
visit-count and play-frequency bands mutually exclusive (highest applicable
tier only), clamped to at most 100 (it is a `Nat`, hence never negative);
and the maximal-signal customer (local, weekly, five visits, not a member
elsewhere, email+phone, zip) scores exactly 100. -/
theorem membership_score_spec_table :
    (∀ c : Customer, calculateMembershipScore c = specScore c ∧ calculateMembershipScore c ≤ 100) ∧
    calculateMembershipScore maxSignalCustomer = 100 := by
  constructor
  · intro c
    constructor
    · unfold calculateMembershipScore specScore
      have h : (if c.visit_count ≥ 5 then 20
            else if c.visit_count ≥ 3 then 15
            else if c.visit_count ≥ 2 then 10 else 0)
          = (if c.visit_count ≥ 5 then 20
            else if c.visit_count = 3 ∨ c.visit_count = 4 then 15
            else if c.visit_count = 2 then 10 else 0) := by
        split_ifs <;> omega
      rw [h]
    · exact Nat.min_le_right _ _
  · decide

/-- C6: phone normalization strips non-digits, accepts exactly 10 digits,
strips a leading `1` from an 11-digit number, and yields `null` for every
other digit count; the result is always exactly 10 digits or `null`, and
normalization is idempotent. -/
theorem normalize_phone_idempotent_shape (p : Option String) :
    (normalizePhone p =
      match p with
      | none => none
      | some s =>
        if (stripNonDigits s).length = 10 then some (stripNonDigits s)
        else if (stripNonDigits s).length = 11 ∧ (stripNonDigits s).data.head? = some '1' then
          some (String.mk (stripNonDigits s).data.tail)
        else none) ∧
    (normalizePhone p = none ∨
      ∃ d, normalizePhone p = some d ∧ d.length = 10 ∧ ∀ a ∈ d.data, Char.isDigit a) ∧
    normalizePhone (normalizePhone p) = normalizePhone p := by
  refine ⟨?_, normalizePhone_shape p, ?_⟩
  · match p with
    | none => rfl
    | some s =>
      by_cases hs : s = ""
      · subst hs
        decide
      · simp [normalizePhone, hs]
  · rcases normalizePhone_shape p with h | ⟨d, hd, h10, hall⟩
    · rw [h]
      rfl
    · rw [hd]
      exact normalizePhone_digits d h10 hall

theorem getD_mem_of_lt {α : Type} (l : List α) (n : Nat) (d : α) (h : n < l.length) :
    l.getD n d ∈ l := by
  induction l generalizing n with
  | nil => simp at h
  | cons a t ih =>
    cases n with
    | zero => exact List.mem_cons_self a t
    | succ m =>
      exact List.mem_cons_of_mem a (ih m (by simpa using h))

theorem rewardChars_len : rewardChars.data.length = 32 := by decide

theorem rewardChars_upper_fixed : ∀ c ∈ rewardChars.data, Char.toUpper c = c := by decide

theorem mem_insertLe {α : Type} (le : α → α → Bool) (x a : α) (l : List α) :
    a ∈ insertLe le x l ↔ a = x ∨ a ∈ l := by
  induction l with
  | nil => simp [insertLe]
  | cons b t ih =>
    simp only [insertLe]
    split
    · simp [List.mem_cons, or_comm, or_assoc, or_left_comm]
    · simp only [List.mem_cons, ih]
      tauto

theorem mem_sortLe {α : Type} (le : α → α → Bool) (a : α) (l : List α) :
    a ∈ sortLe le l ↔ a ∈ l := by
  induction l with
  | nil => simp [sortLe]
  | cons b t ih => simp [sortLe, mem_insertLe, ih]

theorem length_insertLe {α : Type} (le : α → α → Bool) (x : α) (l : List α) :
    (insertLe le x l).length = l.length + 1 := by
  induction l with
  | nil => rfl
  | cons b t ih =>
    simp only [insertLe]
    split
    · rfl
    · simp [ih]

theorem length_sortLe {α : Type} (le : α → α → Bool) (l : List α) :
    (sortLe le l).length = l.length := by
  induction l with
  | nil => rfl
  | cons b t ih => simp [sortLe, length_insertLe, ih]

/-- C8 (counterexample): a non-local customer of the course with
`membership_score = 80 ≥ 50` is NOT surfaced by `GET /api/prospects` —
the listing query requires `is_local = true` in addition to the looser
score threshold, refuting the claim that locality is not a filter there. -/
theorem prospects_locality_filter_cex :
    (prospectsCexDb.customers.map (fun c => (c.membership_score, c.is_local)))
        = [(80, some false)] ∧
    prospectsCexDb.customers.all
        (fun c => prospectsCexDb.courses.any (fun co => co.id == c.course_id && co.slug == "crescent-pointe")) = true ∧
    listProspects prospectsCexDb "crescent-pointe" 20 = [] := by
  decide

/-- C8 (amended): `GET /api/prospects` surfaces exactly the course's
customers with `membership_score >= 50` AND `is_local = true` (score
threshold 50 is looser than the persisted flag's 60, but locality is
still required), up to the result limit. -/
theorem prospects_require_local_and_score50 (db : Db) (slug : String) (lim : Nat) (c : Customer) :
    (c ∈ listProspects db slug lim →
      c.is_local = some true ∧ c.membership_score ≥ 50 ∧
        db.courses.any (fun co => co.id == c.course_id && co.slug == slug) = true) ∧
    ((db.customers.filter (prospectFilter db slug)).length ≤ lim → c ∈ db.customers →
      c.is_local = some true → c.membership_score ≥ 50 →
      db.courses.any (fun co => co.id == c.course_id && co.slug == slug) = true →
      c ∈ listProspects db slug lim) := by
  constructor
  · intro hmem
    have h1 : c ∈ sortLe prospectOrder (db.customers.filter (prospectFilter db slug)) :=
      List.mem_of_mem_take hmem
    have h2 : c ∈ db.customers.filter (prospectFilter db slug) := (mem_sortLe _ _ _).mp h1
    have h3 : prospectFilter db slug c = true := (List.mem_filter.mp h2).2
    unfold prospectFilter at h3
    simp only [Bool.and_eq_true, beq_iff_eq, decide_eq_true_eq] at h3
    exact ⟨h3.1.2, h3.2, h3.1.1⟩
  · intro hlen hmem hlocal hscore hcourse
    have hp : prospectFilter db slug c = true := by
      unfold prospectFilter
      simp only [Bool.and_eq_true, beq_iff_eq, decide_eq_true_eq]
      exact ⟨⟨hcourse, hlocal⟩, hscore⟩
    have h2 : c ∈ db.customers.filter (prospectFilter db slug) := List.mem_filter.mpr ⟨hmem, hp⟩
    have h3 : c ∈ sortLe prospectOrder (db.customers.filter (prospectFilter db slug)) :=
      (mem_sortLe _ _ _).mpr h2
    unfold listProspects
    rw [List.take_of_length_le]
    · exact h3
    · rw [length_sortLe]
      exact hlen

/-- C8 (witness): a local customer with score 55 is surfaced. -/
theorem prospects_require_local_and_score50_instance :
    ((prospectsWitDb.customers.filter (prospectFilter prospectsWitDb "crescent-pointe")).length ≤ 20) ∧
    ∃ c, c ∈ prospectsWitDb.customers ∧ c ∈ listProspects prospectsWitDb "crescent-pointe" 20 := by
  refine ⟨by decide, ?_⟩
  refine ⟨_, List.mem_cons_self _ _, ?_⟩
  exact (prospects_require_local_and_score50 prospectsWitDb "crescent-pointe" 20 _).2
    (by decide) (List.mem_cons_self _ _) (by decide) (by decide) (by decide)

/-- C9 (counterexample): reward codes are NOT globally unique — with the
random draws of the generator repeating between two submissions, the two
distinct capture rows created both carry reward code `CPAAAAAA`, and
neither generation nor the schema (a plain non-unique index on
`reward_code`) prevents the second insert. -/
theorem reward_code_collision_cex :
    collisionDb2.captures.map (fun cap => cap.reward_code) = ["CPAAAAAA", "CPAAAAAA"] ∧
    collisionDb2.captures.map (fun cap => cap.id) = [1, 2] := by
  decide

/-- C9 (amended): every generated reward code has the fixed format — 8
characters, the `CP` course prefix, remaining characters drawn from the
32-symbol unambiguous alphabet — but global uniqueness is not guaranteed:
generation never consults existing codes and the schema has no uniqueness
constraint on `reward_code`, so two capture rows can share a code. -/
theorem reward_code_format (rands : List Nat) :
    (generateRewardCode rands).length = 8 ∧
    (generateRewardCode rands).data.take 2 = ['C', 'P'] ∧
    ∀ ch ∈ (generateRewardCode rands).data.drop 2, ch ∈ rewardChars.data := by
  refine ⟨?_, rfl, ?_⟩
  · show ('C' :: 'P' :: (List.range 6).map _).length = 8
    simp
  · intro ch hch
    have hch' : ch ∈ (List.range 6).map
        (fun i => rewardChars.data.getD (rands.getD i 0 % 32) 'A') := hch
    obtain ⟨i, _, rfl⟩ := List.mem_map.mp hch'
    refine getD_mem_of_lt _ _ _ ?_
    rw [rewardChars_len]
    exact Nat.mod_lt _ (by norm_num)

/-- C9 (witness): the format theorem evaluated at an all-zero draw. -/
theorem reward_code_format_instance :
    (generateRewardCode [0, 0, 0, 0, 0, 0]).length = 8 ∧ 'A' ∈ rewardChars.data :=
  ⟨(reward_code_format [0, 0, 0, 0, 0, 0]).1,
   (reward_code_format [0, 0, 0, 0, 0, 0]).2.2 'A' (by decide)⟩

/-- C10: reward lookup is case-insensitive in the submitted code — both
the redeem operation and the status check uppercase the supplied code
before matching, so two codes with the same uppercasing address the same
capture; and generated (stored) codes are fixed points of uppercasing. -/
theorem reward_lookup_case_insensitive :
    (∀ (db : Db) (code1 code2 : String) (staff : Option String),
      upperStr code1 = upperStr code2 →
        redeemCapture db code1 staff = redeemCapture db code2 staff ∧
        checkReward db code1 = checkReward db code2) ∧
    ∀ rands, upperStr (generateRewardCode rands) = generateRewardCode rands := by
  constructor
  · intro db code1 code2 staff h
    constructor
    · unfold redeemCapture
      rw [h]
    · unfold checkReward
      rw [h]
  · intro rands
    have hfix : ((List.range 6).map
          (fun i => rewardChars.data.getD (rands.getD i 0 % 32) 'A')).map Char.toUpper
        = (List.range 6).map (fun i => rewardChars.data.getD (rands.getD i 0 % 32) 'A') := by
      rw [List.map_map]
      refine List.map_congr_left ?_
      intro i _
      refine rewardChars_upper_fixed _ (getD_mem_of_lt _ _ _ ?_)
      rw [rewardChars_len]
      exact Nat.mod_lt _ (by norm_num)
    show String.mk (List.map Char.toUpper ('C' :: 'P' :: _)) = _
    simp only [List.map_cons]
    rw [hfix]
    have hc : Char.toUpper 'C' = 'C' := by decide
    have hp : Char.toUpper 'P' = 'P' := by decide
    rw [hc, hp]
    rfl

/-- C10 (witness): `cpabcdef` and `CPABCDEF` address the same capture in a
concrete state, and a concrete generated code is fixed under uppercasing. -/
theorem reward_lookup_case_insensitive_instance :
    (redeemCapture redeemWitDb "cpabcdef" none = redeemCapture redeemWitDb "CPABCDEF" none ∧
      checkReward redeemWitDb "cpabcdef" = checkReward redeemWitDb "CPABCDEF") ∧
    upperStr (generateRewardCode [0, 0, 0, 0, 0, 0]) = generateRewardCode [0, 0, 0, 0, 0, 0] :=
  ⟨reward_lookup_case_insensitive.1 redeemWitDb "cpabcdef" "CPABCDEF" none (by decide),
   reward_lookup_case_insensitive.2 [0, 0, 0, 0, 0, 0]⟩

theorem find?_map_pres (g : Customer → Customer) (hg : ∀ c, (g c).id = c.id)
    (l : List Customer) (cid : Nat) :
    (l.map g).find? (fun c => c.id == cid) = (l.find? (fun c => c.id == cid)).map g := by
  induction l with
  | nil => rfl
  | cons a t ih =>
    have hid : ((g a).id == cid) = (a.id == cid) := by rw [hg a]
    simp only [List.map_cons, List.find?, hid]
    cases h : (a.id == cid)
    · simpa only [h] using ih
    · simp only [h]
      rfl

theorem emailMatch_mem (db : Db) (courseId : Nat) (ne : Option String) (c : Customer)
    (h : emailMatch db courseId ne = some c) : c ∈ db.customers := by
  unfold emailMatch at h
  split at h
  · exact List.mem_of_find?_eq_some h
  · exact absurd h (by simp)

theorem phoneMatch_mem (db : Db) (courseId : Nat) (np : Option String) (c : Customer)
    (h : phoneMatch db courseId np = some c) : c ∈ db.customers := by
  unfold phoneMatch at h
  split at h
  · exact List.mem_of_find?_eq_some h
  · exact absurd h (by simp)

theorem captureMatch_mem (db : Db) (courseId : Nat) (ne np : Option String) (c : Customer)
    (h : captureMatch db courseId ne np = some c) : c ∈ db.customers := by
  unfold captureMatch at h
  split at h
  · cases h
    exact emailMatch_mem db courseId ne c (by assumption)
  · exact phoneMatch_mem db courseId np c h

theorem scoreUpdate_preserves_id (cid : Nat) (score : Nat) (isProspect : Bool) :
    ∀ c : Customer,
      ((fun c : Customer =>
        if c.id == cid then
          { c with membership_score := score, is_membership_prospect := isProspect }
        else c) c).id = c.id := by
  intro c
  dsimp only
  split <;> rfl

theorem scoreUpdateDb_find? (db : Db) (cid : Nat) (score : Nat) (isProspect : Bool)
    (cData : Customer) (hfind : db.customers.find? (fun c => c.id == cid) = some cData) :
    (scoreUpdateDb db cid score isProspect).customers.find? (fun c => c.id == cid)
      = some { cData with membership_score := score, is_membership_prospect := isProspect } := by
  have hpc := List.find?_some hfind
  simp only at hpc
  show (db.customers.map _).find? (fun c : Customer => c.id == cid) = _
  rw [find?_map_pres _ (scoreUpdate_preserves_id cid score isProspect), hfind]
  have hid : cData.id = cid := by simpa using hpc
  simp [hid]

theorem finishCapture_ok (db0 db1 : Db) (courseId cid : Nat) (isNew : Bool)
    (req : CaptureRequest) (rands : List Nat) (rc : String) (isNew2 : Bool) (cid2 : Nat)
    (h : (finishCapture db0 db1 courseId cid isNew req rands).1 = .ok rc isNew2 cid2) :
    cid2 = cid ∧ isNew2 = isNew ∧
    ∃ cData, db1.customers.find? (fun c => c.id == cid) = some cData ∧
      (finishCapture db0 db1 courseId cid isNew req rands).2.customers.find?
          (fun c => c.id == cid)
        = some { cData with
            membership_score := calculateMembershipScore cData
            is_membership_prospect :=
              decide (calculateMembershipScore cData ≥ 60) && (cData.is_local == some true) } := by
  unfold finishCapture at h ⊢
  cases hfind : db1.customers.find? (fun c => c.id == cid) with
  | none =>
    rw [hfind] at h
    simp at h
  | some cData =>
    rw [hfind] at h
    dsimp only at h
    injection h with hrc hnew hcid
    refine ⟨hcid.symm, hnew.symm, cData, rfl, ?_⟩
    show (scoreUpdateDb db1 cid (calculateMembershipScore cData)
        (decide (calculateMembershipScore cData ≥ 60) && (cData.is_local == some true))).customers.find?
        (fun c => c.id == cid) = _
    exact scoreUpdateDb_find? db1 cid _ _ cData hfind

theorem submitCapture_branches (db : Db) (req : CaptureRequest) (rands : List Nat) :
    (∃ m, submitCapture db req rands = (.error m, db)) ∨
    (∃ courseId exC, exC ∈ db.customers ∧
      submitCapture db req rands =
        finishCapture db
          (captureUpdateDb db exC.id req (normEmail req.email) (normalizePhone req.phone))
          courseId exC.id false req rands) ∨
    (∃ courseId,
      submitCapture db req rands =
        finishCapture db
          (captureInsertDb db courseId req (normEmail req.email) (normalizePhone req.phone))
          courseId db.nextCustomerId true req rands) := by
  unfold submitCapture
  cases hc : findCourse db ((req.courseSlug).getD "crescent-pointe") with
  | none => exact Or.inl ⟨"Course not found", rfl⟩
  | some courseId =>
    cases hm : captureMatch db courseId (normEmail req.email) (normalizePhone req.phone) with
    | some exC =>
      exact Or.inr (Or.inl ⟨courseId, exC,
        captureMatch_mem db courseId _ _ exC hm, by dsimp only; rw [hm]⟩)
    | none =>
      exact Or.inr (Or.inr ⟨courseId, by dsimp only; rw [hm]⟩)

/-- C2: after any successful capture, the persisted
`is_membership_prospect` flag of the (re-read) customer equals
`membership_score >= 60 AND is_local = true`; in particular a customer
whose `is_local` is not `true` is never flagged, however high the score. -/
theorem prospect_flag_requires_score_and_local (db : Db) (req : CaptureRequest)
    (rands : List Nat) (rc : String) (isNew : Bool) (cid : Nat)
    (h : (submitCapture db req rands).1 = .ok rc isNew cid) :
    ∃ c', (submitCapture db req rands).2.customers.find? (fun c => c.id == cid) = some c' ∧
      c'.is_membership_prospect
        = (decide (c'.membership_score ≥ 60) && (c'.is_local == some true)) ∧
      (c'.is_local ≠ some true → c'.is_membership_prospect = false) := by
  rcases submitCapture_branches db req rands with
    ⟨m, hm⟩ | ⟨courseId, exC, _, hm⟩ | ⟨courseId, hm⟩
  · rw [hm] at h
    exact absurd h (by simp)
  · rw [hm] at h ⊢
    obtain ⟨hcid, _, cData, _, hpost⟩ :=
      finishCapture_ok _ _ _ _ _ _ _ _ _ _ h
    subst hcid
    refine ⟨_, hpost, rfl, ?_⟩
    intro hne
    have hb : (cData.is_local == some true) = false := by
      simpa using hne
    show (decide (calculateMembershipScore cData ≥ 60) && (cData.is_local == some true)) = false
    rw [hb]
    exact Bool.and_false _
  · rw [hm] at h ⊢
    obtain ⟨hcid, _, cData, _, hpost⟩ :=
      finishCapture_ok _ _ _ _ _ _ _ _ _ _ h
    subst hcid
    refine ⟨_, hpost, rfl, ?_⟩
    intro hne
    have hb : (cData.is_local == some true) = false := by
      simpa using hne
    show (decide (calculateMembershipScore cData ≥ 60) && (cData.is_local == some true)) = false
    rw [hb]
    exact Bool.and_false _

/-- C2 (witness): a concrete successful first capture; the stored flag of
the created customer satisfies the equation (score 55, local, flag off). -/
theorem prospect_flag_requires_score_and_local_instance :
    (submitCapture baseDb flagWitReq [0, 0, 0, 0, 0, 0]).1 = CaptureOutcome.ok "CPAAAAAA" true 1 ∧
    ∃ c', (submitCapture baseDb flagWitReq [0, 0, 0, 0, 0, 0]).2.customers.find?
        (fun c => c.id == 1) = some c' ∧
      c'.is_membership_prospect
        = (decide (c'.membership_score ≥ 60) && (c'.is_local == some true)) ∧
      (c'.is_local ≠ some true → c'.is_membership_prospect = false) :=
  ⟨by decide,
   prospect_flag_requires_score_and_local baseDb flagWitReq [0, 0, 0, 0, 0, 0]
     "CPAAAAAA" true 1 (by decide)⟩

/-- C1 (counterexample): the public capture merge is NOT fill-blank-only.
A matched customer whose `first_name` is already the non-null `"Alice"`
ends up with `first_name = "Bob"` after a re-capture submitting `"Bob"`:
the `UPDATE` uses `COALESCE($new, column)`, so a non-null submitted value
overwrites the previously-known one. -/
theorem capture_merge_overwrites_existing_name :
    mergeCexDb.customers.map (fun c => c.first_name) = [some "Alice"] ∧
    (submitCapture mergeCexDb mergeCexReq [0, 0, 0, 0, 0, 0]).1
      = CaptureOutcome.ok "CPAAAAAA" false 1 ∧
    (submitCapture mergeCexDb mergeCexReq [0, 0, 0, 0, 0, 0]).2.customers.map
        (fun c => c.first_name) = [some "Bob"] := by
  decide

/-- C1 (amended): on a matched public capture, profile attributes merge
with submitted-value-wins semantics — each field becomes
`COALESCE(submitted, existing)`, i.e. a non-null submitted value
overwrites the stored one and a null submitted value leaves it unchanged
(fill-blank-only holds only for the import path) — and `visit_count`
increments by one. -/
theorem capture_merge_submitted_value_wins (db : Db) (req : CaptureRequest)
    (rands : List Nat) (rc : String) (cid : Nat)
    (h : (submitCapture db req rands).1 = .ok rc false cid) :
    ∃ cOld c',
      db.customers.find? (fun c => c.id == cid) = some cOld ∧
      (submitCapture db req rands).2.customers.find? (fun c => c.id == cid) = some c' ∧
      c'.first_name = jsCoalesce req.firstName cOld.first_name ∧
      c'.last_name = jsCoalesce req.lastName cOld.last_name ∧
      c'.email = jsCoalesce (normEmail req.email) cOld.email ∧
      c'.phone = jsCoalesce (normalizePhone req.phone) cOld.phone ∧
      c'.zip = jsCoalesce req.zip cOld.zip ∧
      c'.booking_source = jsCoalesce req.bookingSource cOld.booking_source ∧
      c'.is_local = jsCoalesce req.isLocal cOld.is_local ∧
      c'.play_frequency = jsCoalesce req.playFrequency cOld.play_frequency ∧
      c'.member_elsewhere = jsCoalesce req.memberElsewhere cOld.member_elsewhere ∧
      c'.visit_count = cOld.visit_count + 1 := by
  rcases submitCapture_branches db req rands with
    ⟨m, hm⟩ | ⟨courseId, exC, hmem, hm⟩ | ⟨courseId, hm⟩
  · rw [hm] at h
    exact absurd h (by simp)
  · rw [hm] at h ⊢
    obtain ⟨hcid, _, cData, hfind, hpost⟩ :=
      finishCapture_ok _ _ _ _ _ _ _ _ _ _ h
    subst hcid
    have hg : ∀ c : Customer,
        ((fun c : Customer =>
          if c.id == exC.id then
            applyCaptureUpdate c req (normEmail req.email) (normalizePhone req.phone)
          else c) c).id = c.id := by
      intro c
      dsimp only
      split
      · rfl
      · rfl
    have hfind' : (db.customers.map (fun c : Customer =>
        if c.id == exC.id then
          applyCaptureUpdate c req (normEmail req.email) (normalizePhone req.phone)
        else c)).find? (fun c => c.id == exC.id) = some cData := hfind
    rw [find?_map_pres _ hg] at hfind'
    obtain ⟨cOld, hcOld, hgc⟩ := Option.map_eq_some'.mp hfind'
    have hpc := List.find?_some hcOld
    simp only at hpc
    refine ⟨cOld, _, hcOld, hpost, ?_⟩
    have hcData : cData = applyCaptureUpdate cOld req (normEmail req.email) (normalizePhone req.phone) := by
      rw [← hgc]
      simp [hpc]
    subst hcData
    exact ⟨rfl, rfl, rfl, rfl, rfl, rfl, rfl, rfl, rfl, rfl⟩
  · rw [hm] at h
    obtain ⟨_, hnew, _⟩ := finishCapture_ok _ _ _ _ _ _ _ _ _ _ h
    exact absurd hnew (by simp)

/-- C1 (witness): a concrete matched re-capture — the submitted name
`Carol` lands in the record and the existing zip survives because the
submission left it null; `visit_count` goes from 1 to 2. -/
theorem capture_merge_submitted_value_wins_instance :
    (submitCapture mergeWitDb mergeWitReq [0, 0, 0, 0, 0, 0]).1
      = CaptureOutcome.ok "CPAAAAAA" false 1 ∧
    ∃ cOld c',
      mergeWitDb.customers.find? (fun c => c.id == 1) = some cOld ∧
      (submitCapture mergeWitDb mergeWitReq [0, 0, 0, 0, 0, 0]).2.customers.find?
          (fun c => c.id == 1) = some c' ∧
      c'.first_name = jsCoalesce mergeWitReq.firstName cOld.first_name ∧
      c'.last_name = jsCoalesce mergeWitReq.lastName cOld.last_name ∧
      c'.email = jsCoalesce (normEmail mergeWitReq.email) cOld.email ∧
      c'.phone = jsCoalesce (normalizePhone mergeWitReq.phone) cOld.phone ∧
      c'.zip = jsCoalesce mergeWitReq.zip cOld.zip ∧
      c'.booking_source = jsCoalesce mergeWitReq.bookingSource cOld.booking_source ∧
      c'.is_local = jsCoalesce mergeWitReq.isLocal cOld.is_local ∧
      c'.play_frequency = jsCoalesce mergeWitReq.playFrequency cOld.play_frequency ∧
      c'.member_elsewhere = jsCoalesce mergeWitReq.memberElsewhere cOld.member_elsewhere ∧
      c'.visit_count = cOld.visit_count + 1 :=
  ⟨by decide,
   capture_merge_submitted_value_wins mergeWitDb mergeWitReq [0, 0, 0, 0, 0, 0]
     "CPAAAAAA" 1 (by decide)⟩

theorem redeem_fail (db : Db) (code : String) (staff : Option String)
    (hf : db.captures.filter (fun c => c.reward_code == upperStr code && !c.reward_redeemed) = []) :
    redeemCapture db code staff = (.notFoundOrRedeemed, db) := by
  unfold redeemCapture
  dsimp only
  rw [hf]

theorem redeem_success (db : Db) (code : String) (staff : Option String)
    (c : Capture) (rest : List Capture)
    (hf : db.captures.filter (fun c => c.reward_code == upperStr code && !c.reward_redeemed)
      = c :: rest) :
    redeemCapture db code staff =
      (.success (markRedeemed c staff),
        { db with
          captures := db.captures.map (fun cap =>
            if cap.reward_code == upperStr code && !cap.reward_redeemed then
              markRedeemed cap staff
            else cap) }) := by
  unfold redeemCapture
  dsimp only
  rw [hf]

/-- C3: redemption succeeds iff a capture with the (normalized) code
exists and is unredeemed; a failed attempt changes nothing; after any
attempt every capture bearing the code is redeemed (the transition is
one-way); and a subsequent attempt on the same code always fails with the
not-found-or-already-redeemed outcome, leaving the state unchanged. -/
theorem redeem_exactly_once (db : Db) (code : String) (staff staff2 : Option String) :
    ((redeemCapture db code staff).1 ≠ .notFoundOrRedeemed ↔
      ∃ cap ∈ db.captures, cap.reward_code = upperStr code ∧ cap.reward_redeemed = false) ∧
    ((redeemCapture db code staff).1 = .notFoundOrRedeemed →
      (redeemCapture db code staff).2 = db) ∧
    (∀ cap' ∈ (redeemCapture db code staff).2.captures,
      cap'.reward_code = upperStr code → cap'.reward_redeemed = true) ∧
    redeemCapture (redeemCapture db code staff).2 code staff2
      = (.notFoundOrRedeemed, (redeemCapture db code staff).2) := by
  cases hf : db.captures.filter (fun c => c.reward_code == upperStr code && !c.reward_redeemed) with
  | nil =>
    have he := redeem_fail db code staff hf
    rw [he]
    refine ⟨?_, fun _ => rfl, ?_, redeem_fail db code staff2 hf⟩
    · constructor
      · intro hcon
        exact absurd rfl hcon
      · rintro ⟨cap, hmem, hcode, hred⟩
        have hnp := List.filter_eq_nil_iff.mp hf cap hmem
        exact absurd (by rw [hcode, hred]; simp) hnp
    · intro cap' hmem hcode
      have hnp := List.filter_eq_nil_iff.mp hf cap' hmem
      cases hrr : cap'.reward_redeemed with
      | true => rfl
      | false => exact absurd (by rw [hcode, hrr]; simp) hnp
  | cons c rest =>
    have he := redeem_success db code staff c rest hf
    rw [he]
    have hcmem : c ∈ db.captures.filter
        (fun c => c.reward_code == upperStr code && !c.reward_redeemed) := by
      rw [hf]
      exact List.mem_cons_self c rest
    have hcprop := List.mem_filter.mp hcmem
    have hccode : c.reward_code = upperStr code := by
      have := hcprop.2
      simp only [Bool.and_eq_true, beq_iff_eq, Bool.not_eq_true'] at this
      exact this.1
    have hcred : c.reward_redeemed = false := by
      have := hcprop.2
      simp only [Bool.and_eq_true, beq_iff_eq, Bool.not_eq_true'] at this
      exact this.2
    have hall : ∀ cap' ∈ db.captures.map (fun cap =>
        if cap.reward_code == upperStr code && !cap.reward_redeemed then
          markRedeemed cap staff
        else cap),
        cap'.reward_code = upperStr code → cap'.reward_redeemed = true := by
      intro cap' hmem hcode
      obtain ⟨cap, hcap, rfl⟩ := List.mem_map.mp hmem
      by_cases hp : (cap.reward_code == upperStr code && !cap.reward_redeemed) = true
      · simp only [hp, if_true]
        rfl
      · rw [if_neg hp] at hcode ⊢
        cases hrr : cap.reward_redeemed with
        | true => rfl
        | false => exact absurd (by rw [hcode, hrr]; simp) hp
    refine ⟨?_, ?_, hall, ?_⟩
    · constructor
      · intro _
        exact ⟨c, hcprop.1, hccode, hcred⟩
      · intro _
        simp
    · intro hcon
      exact absurd hcon (by simp)
    · refine redeem_fail _ code staff2 (List.filter_eq_nil_iff.mpr ?_)
      intro cap' hmem
      intro hp
      have hcode : cap'.reward_code = upperStr code := by
        simp only [Bool.and_eq_true, beq_iff_eq, Bool.not_eq_true'] at hp
        exact hp.1
      have hred : cap'.reward_redeemed = false := by
        simp only [Bool.and_eq_true, beq_iff_eq, Bool.not_eq_true'] at hp
        exact hp.2
      have := hall cap' hmem hcode
      rw [hred] at this
      exact absurd this (by simp)

/-- C3 (witness): redeeming `CPABCDEF` in a state with that single
unredeemed capture, evaluated through the theorem. -/
theorem redeem_exactly_once_instance :
    ((redeemCapture redeemWitDb "CPABCDEF" (some "staff")).1 ≠ .notFoundOrRedeemed ↔
      ∃ cap ∈ redeemWitDb.captures,
        cap.reward_code = upperStr "CPABCDEF" ∧ cap.reward_redeemed = false) ∧
    ((redeemCapture redeemWitDb "CPABCDEF" (some "staff")).1 = .notFoundOrRedeemed →
      (redeemCapture redeemWitDb "CPABCDEF" (some "staff")).2 = redeemWitDb) ∧
    (∀ cap' ∈ (redeemCapture redeemWitDb "CPABCDEF" (some "staff")).2.captures,
      cap'.reward_code = upperStr "CPABCDEF" → cap'.reward_redeemed = true) ∧
    redeemCapture (redeemCapture redeemWitDb "CPABCDEF" (some "staff")).2 "CPABCDEF" (some "other")
      = (.notFoundOrRedeemed, (redeemCapture redeemWitDb "CPABCDEF" (some "staff")).2) :=
  redeem_exactly_once redeemWitDb "CPABCDEF" (some "staff") (some "other")

/-- C4: in the anti-abuse capture variant, a submission whose normalized
email already has a successful capture recorded at the same course is
rejected with the distinct `already_claimed` outcome before any write —
the returned state is exactly the input state (no new customer, no
customer mutation, no capture row, no reward code). -/
theorem already_claimed_rejected_unchanged (db : Db) (req : CaptureRequest)
    (rands : List Nat) (courseId : Nat)
    (hcourse : findCourse db ((req.courseSlug).getD "crescent-pointe") = some courseId)
    (htruthy : truthyS (normEmail req.email) = true)
    (hclaim : ∃ cap ∈ db.captures, ∃ cu ∈ db.customers,
      cap.customer_id = some cu.id ∧ cu.course_id = courseId ∧ cu.email = normEmail req.email) :
    submitCaptureV2 db req rands = (.alreadyClaimed, db) := by
  have hclaimByEmail : (truthyS (normEmail req.email) &&
      db.captures.any (fun cap =>
        db.customers.any (fun cu =>
          cap.customer_id == some cu.id && cu.course_id == courseId
            && cu.email == normEmail req.email))) = true := by
    rw [htruthy, Bool.true_and, List.any_eq_true]
    obtain ⟨cap, hcap, cu, hcu, h1, h2, h3⟩ := hclaim
    refine ⟨cap, hcap, List.any_eq_true.mpr ⟨cu, hcu, ?_⟩⟩
    simp [h1, h2, h3]
  unfold submitCaptureV2
  rw [hcourse]
  dsimp only
  split
  · rfl
  · simp [hclaimByEmail]

/-- C4 (witness): a concrete second submission for an email that already
claimed a reward at the course is rejected and the state is untouched. -/
theorem already_claimed_rejected_unchanged_instance :
    submitCaptureV2 claimedDb claimedReq [0, 0, 0, 0, 0, 0] = (.alreadyClaimed, claimedDb) :=
  already_claimed_rejected_unchanged claimedDb claimedReq [0, 0, 0, 0, 0, 0] 1
    (by decide) (by decide) (by decide)

theorem processRow_action_cases (source : String) (courseId : Nat) (db : Db) (idx : Nat)
    (row : ImportRow) :
    (processRow source courseId db idx row).1.action = "error" ∨
    (processRow source courseId db idx row).1.action = "skipped" ∨
    (processRow source courseId db idx row).1.action = "matched" ∨
    (processRow source courseId db idx row).1.action = "created" := by
  unfold processRow
  split
  · exact Or.inl rfl
  · dsimp only
    split
    · exact Or.inr (Or.inl rfl)
    · split
      · exact Or.inr (Or.inr (Or.inl rfl))
      · exact Or.inr (Or.inr (Or.inr rfl))

theorem processRow_fault (source : String) (courseId : Nat) (db : Db) (idx : Nat)
    (row : ImportRow) (hfault : row.fault = true) :
    (processRow source courseId db idx row).1.action = "error" := by
  simp [processRow, hfault]

theorem processRow_skip (source : String) (courseId : Nat) (db : Db) (idx : Nat)
    (row : ImportRow) (hfault : row.fault = false)
    (he : truthyS (normEmail (mapFields source row.fields).email) = false)
    (hp : normalizePhone (mapFields source row.fields).phone = none) :
    (processRow source courseId db idx row).1.action = "skipped" := by
  simp [processRow, hfault, he, hp]

theorem runRows_length (source : String) (courseId : Nat) :
    ∀ (rows : List ImportRow) (db : Db) (idx : Nat),
      ((runRows source courseId db idx rows).2).length = rows.length := by
  intro rows
  induction rows with
  | nil => intro db idx; rfl
  | cons r t ih =>
    intro db idx
    simp [runRows, ih]

theorem runRows_mem_action (source : String) (courseId : Nat) :
    ∀ (rows : List ImportRow) (db : Db) (idx : Nat) (a : AuditRow),
      a ∈ (runRows source courseId db idx rows).2 →
      a.action = "error" ∨ a.action = "skipped" ∨ a.action = "matched" ∨ a.action = "created" := by
  intro rows
  induction rows with
  | nil =>
    intro db idx a h
    simp [runRows] at h
  | cons r t ih =>
    intro db idx a h
    simp only [runRows, List.mem_cons] at h
    rcases h with h | h
    · rw [h]
      exact processRow_action_cases source courseId db idx r
    · exact ih _ _ a h

theorem countAction_partition :
    ∀ (l : List AuditRow),
      (∀ a ∈ l, a.action = "error" ∨ a.action = "skipped" ∨ a.action = "matched"
        ∨ a.action = "created") →
      countAction l "created" + countAction l "matched" + countAction l "skipped"
        + countAction l "error" = l.length := by
  intro l
  induction l with
  | nil => intro _; rfl
  | cons a t ih =>
    intro hl
    have ha := hl a (List.mem_cons_self a t)
    have iht := ih (fun x hx => hl x (List.mem_cons_of_mem a hx))
    unfold countAction at iht ⊢
    simp only [List.countP_cons, List.length_cons]
    rcases ha with h | h | h | h <;> simp +decide [h] <;> omega

theorem runRows_get (source : String) (courseId : Nat) :
    ∀ (rows : List ImportRow) (db : Db) (idx i : Nat) (row : ImportRow),
      rows.get? i = some row →
      ∃ db0, ((runRows source courseId db idx rows).2).get? i
        = some (processRow source courseId db0 (idx + i) row).1 := by
  intro rows
  induction rows with
  | nil =>
    intro db idx i row h
    simp at h
  | cons r t ih =>
    intro db idx i row h
    cases i with
    | zero =>
      have hr : r = row := by simpa using h
      subst hr
      exact ⟨db, by simp [runRows]⟩
    | succ j =>
      have h' : t.get? j = some row := h
      obtain ⟨db0, hdb0⟩ := ih (processRow source courseId db idx r).2 (idx + 1) j row h'
      refine ⟨db0, ?_⟩
      have harith : idx + 1 + j = idx + (j + 1) := by omega
      rw [harith] at hdb0
      simpa [runRows] using hdb0

/-- C7: for every import batch with a resolvable course, the row loop
writes exactly one audit row per input row; a row whose mapped email and
phone both normalize to nothing is audited `skipped`, a faulted row is
audited `error`, and in both cases processing continues; and the final
batch counters satisfy `created + matched + skipped + errors = totalRows`. -/
theorem import_audit_rows_and_counters (db : Db) (slug source : String)
    (rows : List ImportRow) (courseId : Nat)
    (hcourse : findCourse db slug = some courseId) :
    ∃ stats db' audits, processImport db slug source rows = some (stats, db', audits) ∧
      audits.length = rows.length ∧
      stats.totalRows = rows.length ∧
      stats.created + stats.matched + stats.skipped + stats.errors = stats.totalRows ∧
      ∀ i row, rows.get? i = some row →
        ∃ a, audits.get? i = some a ∧
          (row.fault = true → a.action = "error") ∧
          (row.fault = false →
            truthyS (normEmail (mapFields source row.fields).email) = false →
            normalizePhone (mapFields source row.fields).phone = none →
            a.action = "skipped") := by
  unfold processImport
  rw [hcourse]
  dsimp only
  refine ⟨_, _, _, rfl, runRows_length source courseId rows db 0, rfl, ?_, ?_⟩
  · exact (countAction_partition _
      (fun a ha => runRows_mem_action source courseId rows db 0 a ha)).trans
      (runRows_length source courseId rows db 0)
  · intro i row hrow
    obtain ⟨db0, hget⟩ := runRows_get source courseId rows db 0 i row hrow
    refine ⟨_, hget, ?_, ?_⟩
    · intro hf
      exact processRow_fault source courseId db0 (0 + i) row hf
    · intro hf he hp
      exact processRow_skip source courseId db0 (0 + i) row hf he hp

/-- C7 (witness): a two-row batch — a contactless row and a faulted row —
audited as one `skipped` plus one `error`, with counters summing to 2. -/
theorem import_audit_rows_and_counters_instance :
    ∃ stats db' audits,
      processImport baseDb "crescent-pointe" "generic" importWitRows
        = some (stats, db', audits) ∧
      audits.length = importWitRows.length ∧
      stats.totalRows = importWitRows.length ∧
      stats.created + stats.matched + stats.skipped + stats.errors = stats.totalRows ∧
      ∀ i row, importWitRows.get? i = some row →
        ∃ a, audits.get? i = some a ∧
          (row.fault = true → a.action = "error") ∧
          (row.fault = false →
            truthyS (normEmail (mapFields "generic" row.fields).email) = false →
            normalizePhone (mapFields "generic" row.fields).phone = none →
            a.action = "skipped") :=
  import_audit_rows_and_counters baseDb "crescent-pointe" "generic" importWitRows 1 (by decide)

/-- C6 (witness): the characterization, shape and idempotence evaluated on
a concrete formatted US phone number. -/
theorem normalize_phone_idempotent_shape_instance :
    (normalizePhone (some "(843) 123-4567") =
      match some "(843) 123-4567" with
      | none => none
      | some s =>
        if (stripNonDigits s).length = 10 then some (stripNonDigits s)
        else if (stripNonDigits s).length = 11 ∧ (stripNonDigits s).data.head? = some '1' then
          some (String.mk (stripNonDigits s).data.tail)
        else none) ∧
    (normalizePhone (some "(843) 123-4567") = none ∨
      ∃ d, normalizePhone (some "(843) 123-4567") = some d ∧ d.length = 10 ∧
        ∀ a ∈ d.data, Char.isDigit a) ∧
    normalizePhone (normalizePhone (some "(843) 123-4567"))
      = normalizePhone (some "(843) 123-4567") :=
  normalize_phone_idempotent_shape (some "(843) 123-4567")

end GolfCapture
